import Mathlib

/-!
Verification development for the AINotesTelegram-Bot repository.

The Python source is shallowly embedded: mutable objects become explicit
state records threaded through pure functions, Python dicts become
association lists, wall-clock timestamps (floats in the source) are
modelled as integers, and every fallible operation returns `Option`.
Each definition carries a comment naming the source function it embeds.
-/

set_option autoImplicit false
set_option maxRecDepth 8000

namespace NotesBot

/-! ## Configuration (src/config.py, defaults with no environment overrides) -/

/-- `REMINDER_MAX_PER_USER` (src/config.py line 56, default "10"). -/
def REMINDER_MAX_PER_USER : Int := 10

/-- `COMMAND_COOLDOWNS` (src/config.py lines 37-45, defaults). -/
def COMMAND_COOLDOWNS : List (String × Int) :=
  [("add", 5), ("list", 3), ("delete", 3), ("search", 3),
   ("remind", 5), ("reminders", 3), ("debug", 10)]

/-! ## Python dict model

A Python `dict` is modelled as an association list.  `pySet` removes any
entry with the key and appends the new binding; iteration order is not
relied upon by any claim. -/

def pyGet {κ β : Type} [DecidableEq κ] : List (κ × β) → κ → Option β
  | [], _ => none
  | p :: t, k => if p.1 = k then some p.2 else pyGet t k

def pyDel {κ β : Type} [DecidableEq κ] : List (κ × β) → κ → List (κ × β)
  | [], _ => []
  | p :: t, k => if p.1 = k then pyDel t k else p :: pyDel t k

def pySet {κ β : Type} [DecidableEq κ] (m : List (κ × β)) (k : κ) (v : β) : List (κ × β) :=
  pyDel m k ++ [(k, v)]

/-- `d.get(k, default)` -/
def pyGetD {κ β : Type} [DecidableEq κ] (m : List (κ × β)) (k : κ) (d : β) : β :=
  (pyGet m k).getD d

theorem pyGet_pyDel_self {κ β : Type} [DecidableEq κ] (m : List (κ × β)) (k : κ) :
    pyGet (pyDel m k) k = none := by
  induction m with
  | nil => rfl
  | cons p t ih =>
    by_cases h : p.1 = k
    · rw [pyDel, if_pos h]; exact ih
    · rw [pyDel, if_neg h, pyGet, if_neg h]; exact ih

theorem pyGet_pyDel_other {κ β : Type} [DecidableEq κ] (m : List (κ × β)) (k k' : κ)
    (h : k' ≠ k) : pyGet (pyDel m k) k' = pyGet m k' := by
  induction m with
  | nil => rfl
  | cons p t ih =>
    by_cases hp : p.1 = k
    · have hp' : ¬ p.1 = k' := by rw [hp]; exact fun e => h e.symm
      rw [pyDel, if_pos hp, pyGet, if_neg hp']; exact ih
    · by_cases hq : p.1 = k'
      · rw [pyDel, if_neg hp, pyGet, if_pos hq, pyGet, if_pos hq]
      · rw [pyDel, if_neg hp, pyGet, if_neg hq, pyGet, if_neg hq]; exact ih

theorem pyGet_append {κ β : Type} [DecidableEq κ] (m₁ m₂ : List (κ × β)) (k : κ) :
    pyGet (m₁ ++ m₂) k = ((pyGet m₁ k).orElse (fun _ => pyGet m₂ k)) := by
  induction m₁ with
  | nil => rfl
  | cons p t ih =>
    by_cases hp : p.1 = k
    · simp only [List.cons_append, pyGet, if_pos hp]
      rfl
    · simp only [List.cons_append, pyGet, if_neg hp]
      exact ih

theorem pyGet_pySet_self {κ β : Type} [DecidableEq κ] (m : List (κ × β)) (k : κ) (v : β) :
    pyGet (pySet m k v) k = some v := by
  rw [pySet, pyGet_append, pyGet_pyDel_self]
  show pyGet [(k, v)] k = some v
  rw [pyGet, if_pos rfl]

theorem pyGet_pySet_other {κ β : Type} [DecidableEq κ] (m : List (κ × β)) (k k' : κ) (v : β)
    (h : k' ≠ k) : pyGet (pySet m k v) k' = pyGet m k' := by
  rw [pySet, pyGet_append, pyGet_pyDel_other m k k' h]
  cases hm : pyGet m k' with
  | some b => rfl
  | none =>
    have hk : ¬ k = k' := fun e => h e.symm
    show pyGet [(k, v)] k' = none
    rw [pyGet, if_neg hk]
    rfl

/-! ## RateLimiter (src/rate_limiter.py lines 21-81)

`buckets` maps a key to its deque of admitted timestamps, oldest first.
`time.time()` is modelled by an explicit integer argument `now`; the source
calls it twice (once in `_cleanup_expired`, once in `is_allowed`) within the
same logical instant, modelled as a single `now`. -/

structure RateLimiter where
  bucket_size : Nat
  window_size : Int
  buckets : List (String × List Int)
  deriving DecidableEq, Repr

namespace RateLimiter

/-- `RateLimiter.__init__(bucket_size=10, window_size=60)` -/
def init (bucket_size : Nat) (window_size : Int) : RateLimiter :=
  ⟨bucket_size, window_size, []⟩

def bucketOf (rl : RateLimiter) (key : String) : List Int :=
  pyGetD rl.buckets key []

/-- `RateLimiter._cleanup_expired` (lines 30-36): pop from the front while
the head is `< now - window_size`. -/
def cleanupExpired (rl : RateLimiter) (key : String) (now : Int) : RateLimiter :=
  let pruned := (bucketOf rl key).dropWhile (fun t => decide (t < now - rl.window_size))
  { rl with buckets := pySet rl.buckets key pruned }

/-- `RateLimiter.is_allowed` (lines 38-65).  `enabled` is the module-level
`RATE_LIMIT_ENABLED` flag.  Returns `((allowed, retry_after), new_state)`. -/
def isAllowed (enabled : Bool) (rl : RateLimiter) (key : String) (now : Int) :
    (Bool × Int) × RateLimiter :=
  if !enabled then ((true, 0), rl)
  else
    let rl1 := cleanupExpired rl key now
    let bucket := bucketOf rl1 key
    if rl1.bucket_size ≤ bucket.length then
      ((false, max 0 (rl1.window_size - (now - bucket.headD 0))), rl1)
    else
      ((true, 0), { rl1 with buckets := pySet rl1.buckets key (bucket ++ [now]) })

/-- `n` successive `is_allowed` calls for `key` at the same instant `now`,
keeping only the final state. -/
def callN (enabled : Bool) (rl : RateLimiter) (key : String) (now : Int) : Nat → RateLimiter
  | 0 => rl
  | n + 1 => (isAllowed enabled (callN enabled rl key now n) key now).2

end RateLimiter

/-! ## CommandRateLimiter (src/rate_limiter.py lines 84-147) -/

structure CommandRateLimiter where
  rate_limiters : List (String × RateLimiter)
  deriving DecidableEq, Repr

namespace CommandRateLimiter

def init : CommandRateLimiter := ⟨[]⟩

/-- `_get_user_command_key` (lines 92-94). -/
def userCommandKey (user_id : Int) (command : String) : String :=
  "user:" ++ toString user_id ++ ":command:" ++ command

/-- `is_command_allowed` (lines 100-124): an unknown command falls back to a
3-second cooldown (`COMMAND_COOLDOWNS.get(command, 3)`) and lazily creates a
`RateLimiter(bucket_size=1, window_size=cooldown)`. -/
def isCommandAllowed (enabled : Bool) (crl : CommandRateLimiter) (user_id : Int)
    (command : String) (now : Int) : (Bool × Int) × CommandRateLimiter :=
  let cooldown := pyGetD COMMAND_COOLDOWNS command 3
  let key := userCommandKey user_id command
  let limiters :=
    match pyGet crl.rate_limiters command with
    | some _ => crl.rate_limiters
    | none => pySet crl.rate_limiters command (RateLimiter.init 1 cooldown)
  match pyGet limiters command with
  | some rl =>
    let (res, rl') := RateLimiter.isAllowed enabled rl key now
    (res, ⟨pySet limiters command rl'⟩)
  | none => ((true, 0), ⟨limiters⟩)

end CommandRateLimiter

/-! ## SecurityManager and SecurityMiddleware (src/rate_limiter.py lines 168-307) -/

namespace SecurityManager

end SecurityManager

namespace SecurityMiddleware

end SecurityMiddleware

structure CallbackInfo where
  user_id : Int
  note_id : Int
  channel_id : Int
  reminder_time : Int
  note_text : String
  deriving DecidableEq, Repr

structure SchedulerState where
  sched_jobs : List String
  reminder_callbacks : List (String × CallbackInfo)
  user_reminder_counts : List (Int × Int)
  /-- whether `set_discord_bot` has supplied a bot instance. -/
  discord_bot : Bool
  deriving DecidableEq, Repr

namespace SchedulerState

def initState : SchedulerState := ⟨[], [], [], false⟩

/-- Number of live jobs owned by `u` (entries of `reminder_callbacks`). -/
def liveCount (s : SchedulerState) (u : Int) : Nat :=
  (s.reminder_callbacks.filter (fun p => p.2.user_id == u)).length

def countOf (s : SchedulerState) (u : Int) : Int :=
  pyGetD s.user_reminder_counts u 0

/-- `_check_user_reminder_limit` (lines 137-140). -/
def checkUserReminderLimit (s : SchedulerState) (u : Int) : Bool :=
  decide (s.countOf u < REMINDER_MAX_PER_USER)

/-- `_increment_user_reminder_count` (lines 142-144). -/
def incrementCount (s : SchedulerState) (u : Int) : SchedulerState :=
  { s with user_reminder_counts := pySet s.user_reminder_counts u (s.countOf u + 1) }

/-- `_decrement_user_reminder_count` (lines 146-150): only decrements when
the current count is positive. -/
def decrementCount (s : SchedulerState) (u : Int) : SchedulerState :=
  if 0 < s.countOf u then
    { s with user_reminder_counts := pySet s.user_reminder_counts u (s.countOf u - 1) }
  else s

/-- The default job id `f"reminder_{user_id}_{note_id}_{timestamp}"`
(line 101). -/
def defaultJobId (user_id note_id reminder_time : Int) : String :=
  "reminder_" ++ toString user_id ++ "_" ++ toString note_id ++ "_" ++ toString reminder_time

/-- `scheduler.add_job(..., id=job_id, replace_existing=True)`: pending-set
insert. -/
def addJob (s : SchedulerState) (job_id : String) : SchedulerState :=
  { s with sched_jobs := job_id :: s.sched_jobs.filter (fun j => !(j == job_id)) }

/-- `schedule_reminder` (lines 78-135).  `noteStore` is `db.get_note_by_id`
restricted to the note text.  Returns `(job id or None, new state)`. -/
def scheduleReminder (noteStore : Int → Option String) (s : SchedulerState)
    (user_id note_id reminder_time channel_id : Int) (job_id? : Option String) :
    Option String × SchedulerState :=
  if !(s.checkUserReminderLimit user_id) then (none, s)
  else
    let job_id := job_id?.getD (defaultJobId user_id note_id reminder_time)
    match noteStore note_id with
    | none => (none, s)
    | some text =>
      let info : CallbackInfo :=
        ⟨user_id, note_id, channel_id, reminder_time, text.take 100⟩
      let s1 := { s with reminder_callbacks := pySet s.reminder_callbacks job_id info }
      let s2 := addJob s1 job_id
      (some job_id, s2.incrementCount user_id)

/-- `_cleanup_reminder` (lines 217-221). -/
def cleanupReminder (s : SchedulerState) (job_id : String) (user_id : Int) :
    SchedulerState :=
  let s1 := { s with reminder_callbacks := pyDel s.reminder_callbacks job_id }
  s1.decrementCount user_id

/-- `_send_reminder` (lines 152-215), the body run when a job fires.
`channel_found` models `self.discord_bot.get_channel(channel_id)` returning
a channel; `send_raises` models the embed construction and `channel.send`
call raising.  Cleanup runs both on the success path (line 208) and in the
exception handler (lines 210-215), but the early returns for a missing
callback, an unset bot, or a missing channel skip it. -/
def sendReminder (s : SchedulerState) (job_id : String)
    (channel_found send_raises : Bool) : SchedulerState :=
  match pyGet s.reminder_callbacks job_id with
  | none => s
  | some info =>
    if !s.discord_bot then s
    else if !channel_found then s
    else
      -- delivery attempted; cleanup is unconditional on both the success
      -- and the exception path, so `send_raises` does not affect the state
      let _ := send_raises
      s.cleanupReminder job_id info.user_id

/-- A scheduled job firing: the engine dequeues the job, then runs
`_send_reminder`. -/
def fireJob (s : SchedulerState) (job_id : String)
    (channel_found send_raises : Bool) : SchedulerState :=
  let s1 := { s with sched_jobs := s.sched_jobs.filter (fun j => !(j == job_id)) }
  sendReminder s1 job_id channel_found send_raises

/-- `cancel_reminder` (lines 223-235).  `scheduler.remove_job` raises when
the job id is not pending; the surrounding `except` then returns `False`
with the state unmodified. -/
def cancelReminder (s : SchedulerState) (job_id : String) : Bool × SchedulerState :=
  match pyGet s.reminder_callbacks job_id with
  | some info =>
    if s.sched_jobs.contains job_id then
      let s1 := { s with sched_jobs := s.sched_jobs.filter (fun j => !(j == job_id)) }
      (true, s1.cleanupReminder job_id info.user_id)
    else
      (false, s)
  | none => (false, s)

/-- One transition of the scheduler: any public operation with any
arguments (the note store may differ between calls, modelling database
mutation). -/
inductive Step : SchedulerState → SchedulerState → Prop where
  | schedule (s : SchedulerState) (noteStore : Int → Option String)
      (user_id note_id reminder_time channel_id : Int) (job_id? : Option String) :
      Step s (scheduleReminder noteStore s user_id note_id reminder_time channel_id job_id?).2
  | fire (s : SchedulerState) (job_id : String) (channel_found send_raises : Bool) :
      Step s (fireJob s job_id channel_found send_raises)
  | cancel (s : SchedulerState) (job_id : String) :
      Step s (cancelReminder s job_id).2
  | setBot (s : SchedulerState) (b : Bool) :
      Step s { s with discord_bot := b }

/-- States reachable from the freshly constructed scheduler. -/
inductive Reachable : SchedulerState → Prop where
  | init : Reachable initState
  | step {s s' : SchedulerState} : Reachable s → Step s s' → Reachable s'

/-- The counter invariant maintained by every operation: each per-user
counter is non-negative, dominates the user's number of live jobs, and
never exceeds the quota. -/
def Inv (s : SchedulerState) : Prop :=
  ∀ u : Int,
    0 ≤ s.countOf u ∧ (s.liveCount u : Int) ≤ s.countOf u ∧
    s.countOf u ≤ REMINDER_MAX_PER_USER

end SchedulerState

/-! ## Character-level string utilities

The time parsers work on `List Char`; these helpers mirror the exact
Python primitives used by the source (`str.split`, `str.replace`,
`str.strip`, `int(...)`, `re` patterns). -/

/-- Python whitespace (`str.strip`, regex `\s` over ASCII input). -/
def isPySpace (c : Char) : Bool :=
  c == ' ' || c == '\t' || c == '\n' || c == '\r' || c == '\x0b' || c == '\x0c'

def digitVal (c : Char) : Nat := c.toNat - 48

def digitsVal (l : List Char) : Nat := l.foldl (fun n c => 10 * n + digitVal c) 0

def allDigits (l : List Char) : Bool := !l.isEmpty && l.all (fun c => c.isDigit)

def stripChars (l : List Char) : List Char :=
  ((l.dropWhile isPySpace).reverse.dropWhile isPySpace).reverse

/-- Python `int(s)`: optional surrounding whitespace, optional sign, digits. -/
def pyIntOfChars (l : List Char) : Option Int :=
  match stripChars l with
  | '-' :: r => if allDigits r then some (-(digitsVal r : Int)) else none
  | '+' :: r => if allDigits r then some (digitsVal r : Int) else none
  | r => if allDigits r then some (digitsVal r : Int) else none

/-- Python `s.split(sep)` for a single-character separator. -/
def splitOnChar (sep : Char) : List Char → List (List Char)
  | [] => [[]]
  | c :: cs =>
    if c == sep then [] :: splitOnChar sep cs
    else
      match splitOnChar sep cs with
      | h :: t => (c :: h) :: t
      | [] => [[c]]

/-- does the second list start with the first -/
def seqStarts : List Char → List Char → Bool
  | [], _ => true
  | _ :: _, [] => false
  | a :: as, b :: bs => a == b && seqStarts as bs

/-- Python `needle in s`. -/
def hasSub (needle : List Char) : List Char → Bool
  | [] => seqStarts needle []
  | c :: cs => seqStarts needle (c :: cs) || hasSub needle cs

/-- Python `s.replace(ab, "")` for a two-character pattern: left-to-right,
non-overlapping removal of every occurrence. -/
def removeSeq2 (a b : Char) : List Char → List Char
  | [] => []
  | [c] => [c]
  | c :: d :: t =>
    if c == a && d == b then removeSeq2 a b t
    else c :: removeSeq2 a b (d :: t)

/-- Python `s.split()[0]`: `none` when the string holds no token
(`IndexError` in the source, caught by the enclosing handler). -/
def firstTok (l : List Char) : Option (List Char) :=
  let r := l.dropWhile isPySpace
  if r.isEmpty then none else some (r.takeWhile (fun c => !isPySpace c))

/-! ## Datetime model

A Python `datetime` with the fields the source touches; the float
`microsecond` granularity and the tzinfo object are collapsed to an
integer field and an awareness flag.  Comparison is field-lexicographic,
as in CPython (the source only ever compares aware values of the same
timezone). -/

structure PyDateTime where
  year : Int
  month : Int
  day : Int
  hour : Int
  minute : Int
  second : Int
  microsecond : Int
  tz_aware : Bool
  deriving DecidableEq, Repr

def dtFields (t : PyDateTime) : List Int :=
  [t.year, t.month, t.day, t.hour, t.minute, t.second, t.microsecond]

def lexLtInts : List Int → List Int → Bool
  | a :: as, b :: bs => a < b || (a == b && lexLtInts as bs)
  | _, _ => false

def dtLt (a b : PyDateTime) : Bool := lexLtInts (dtFields a) (dtFields b)

def dtLe (a b : PyDateTime) : Bool := dtLt a b || dtFields a == dtFields b

def isLeapYear (y : Int) : Bool :=
  (y % 4 == 0 && y % 100 != 0) || y % 400 == 0

def daysInMonth (y m : Int) : Int :=
  if m == 1 || m == 3 || m == 5 || m == 7 || m == 8 || m == 10 || m == 12 then 31
  else if m == 4 || m == 6 || m == 9 || m == 11 then 30
  else if isLeapYear y then 29 else 28

/-- `timedelta(days=1)` applied to a calendar date. -/
def addOneDay (t : PyDateTime) : PyDateTime :=
  if t.day < daysInMonth t.year t.month then { t with day := t.day + 1 }
  else if t.month < 12 then { t with month := t.month + 1, day := 1 }
  else { t with year := t.year + 1, month := 1, day := 1 }

/-- `base.replace(hour=h, minute=m, second=0, microsecond=0)` for h, m
already validated to be in range. -/
def replaceHM (t : PyDateTime) (h m : Int) : PyDateTime :=
  { t with hour := h, minute := m, second := 0, microsecond := 0 }

/-! ## Clock-time parsing (C3) -/

/-- Regex `^\d{1,2}:\d{2}$` with the two groups converted by `int`
(src/discord_reminder_scheduler.py lines 345-346). -/
def match24 : List Char → Option (Int × Int)
  | [h1, ':', m1, m2] =>
    if h1.isDigit && m1.isDigit && m2.isDigit then
      some ((digitVal h1 : Int), (10 * digitVal m1 + digitVal m2 : Int))
    else none
  | [h1, h2, ':', m1, m2] =>
    if h1.isDigit && h2.isDigit && m1.isDigit && m2.isDigit then
      some ((10 * digitVal h1 + digitVal h2 : Int), (10 * digitVal m1 + digitVal m2 : Int))
    else none
  | _ => none

/-- The `\s*(am|pm)` suffix of the 12-hour regex; `re.match` allows
trailing characters after the match. -/
def ampmSuffix (h m : Int) (rest : List Char) : Option (Int × Int × Bool) :=
  match rest.dropWhile isPySpace with
  | 'a' :: 'm' :: _ => some (h, m, false)
  | 'p' :: 'm' :: _ => some (h, m, true)
  | _ => none

def ampmTail (h : Int) : List Char → Option (Int × Int × Bool)
  | m1 :: m2 :: rest =>
    if m1.isDigit && m2.isDigit then
      ampmSuffix h (10 * digitVal m1 + digitVal m2 : Int) rest
    else none
  | _ => none

/-- Regex `(\d{1,2}):(\d{2})\s*(am|pm)` applied with `re.match` (anchored
at the start only), src/discord_reminder_scheduler.py line 351. -/
def matchAmPm : List Char → Option (Int × Int × Bool)
  | c1 :: c2 :: ':' :: t =>
    if c1.isDigit && c2.isDigit then
      ampmTail (10 * digitVal c1 + digitVal c2 : Int) t
    else none
  | c1 :: ':' :: t =>
    if c1.isDigit then ampmTail (digitVal c1 : Int) t else none
  | _ => none

/-- The 12-hour arm of `_parse_time_format` (lines 350-364). -/
def discordAmPmPart (l : List Char) (base : PyDateTime) : Option PyDateTime :=
  match matchAmPm l with
  | some (h, m, isPm) =>
    let h := if isPm && !(h == 12) then h + 12
             else if !isPm && h == 12 then 0 else h
    if 0 ≤ h ∧ h ≤ 23 ∧ 0 ≤ m ∧ m ≤ 59 then some (replaceHM base h m) else none
  | none => none

/-- `EnhancedDiscordReminderScheduler._parse_time_format`
(src/discord_reminder_scheduler.py lines 341-370). -/
def discordParseTimeFormat (s : String) (base : PyDateTime) : Option PyDateTime :=
  let l := s.data
  match match24 l with
  | some (h, m) =>
    if 0 ≤ h ∧ h ≤ 23 ∧ 0 ≤ m ∧ m ≤ 59 then some (replaceHM base h m)
    else discordAmPmPart l base
  | none => discordAmPmPart l base

/-- `now.replace(hour=h, minute=m, second=0, microsecond=0)` followed by
the roll-forward `if reminder_time <= now: reminder_time += timedelta(days=1)`
(src/reminder_scheduler.py lines 190-206).  An out-of-range hour or minute
makes `replace` raise `ValueError`, caught by the enclosing handler. -/
def pyReplaceRoll (now : PyDateTime) (h m : Int) : Option PyDateTime :=
  if 0 ≤ h ∧ h ≤ 23 ∧ 0 ≤ m ∧ m ≤ 59 then
    let rt := replaceHM now h m
    some (if dtLe rt now then addOneDay rt else rt)
  else none

/-- The clock-time branch (`elif ':' in time_str`) of
`ReminderScheduler.parse_reminder_time` (src/reminder_scheduler.py
lines 178-206).  The am/pm test and the pm/am hour adjustment consult the
original string; the numbers come from the string with every `"am"` and
then every `"pm"` occurrence removed. -/
def telegramParseClock (s : String) (now : PyDateTime) : Option PyDateTime :=
  let l := s.data
  if hasSub ['a', 'm'] l || hasSub ['p', 'm'] l then
    let tp := stripChars (removeSeq2 'p' 'm' (removeSeq2 'a' 'm' l))
    match splitOnChar ':' tp with
    | [hs, ms] =>
      match pyIntOfChars hs, pyIntOfChars ms with
      | some h, some m =>
        let h := if hasSub ['p', 'm'] l && !(h == 12) then h + 12
                 else if hasSub ['a', 'm'] l && h == 12 then 0 else h
        pyReplaceRoll now h m
      | _, _ => none
    | _ => none
  else
    match splitOnChar ':' l with
    | [hs, ms] =>
      match pyIntOfChars hs, pyIntOfChars ms with
      | some h, some m => pyReplaceRoll now h m
      | _, _ => none
    | _ => none

/-! ## Date parsing (C7) -/

/-- `%Y`: exactly four digits, year at least 1 (`datetime.MINYEAR`). -/
def parseYear4 (p : List Char) : Option Int :=
  if p.length == 4 && allDigits p then
    let y : Int := digitsVal p
    if 1 ≤ y then some y else none
  else none

/-- `%m` / `%d`: one or two digits; range checked by the caller. -/
def parseNum12 (p : List Char) : Option Int :=
  if (p.length == 1 || p.length == 2) && allDigits p then some (digitsVal p : Int)
  else none

/-- Strict calendar validation performed by `datetime.strptime`. -/
def mkValidDate (y m d : Int) : Option (Int × Int × Int) :=
  if 1 ≤ m ∧ m ≤ 12 ∧ 1 ≤ d ∧ d ≤ daysInMonth y m then some (y, m, d) else none

/-- `datetime.strptime(tok, "%Y-%m-%d")`. -/
def strptimeYMD (tok : List Char) : Option (Int × Int × Int) :=
  match splitOnChar '-' tok with
  | [ys, ms, ds] =>
    match parseYear4 ys, parseNum12 ms, parseNum12 ds with
    | some y, some m, some d => mkValidDate y m d
    | _, _, _ => none
  | _ => none

/-- `datetime.strptime(tok, "%m/%d/%Y")`. -/
def strptimeMDY (tok : List Char) : Option (Int × Int × Int) :=
  match splitOnChar '/' tok with
  | [ms, ds, ys] =>
    match parseYear4 ys, parseNum12 ms, parseNum12 ds with
    | some y, some m, some d => mkValidDate y m d
    | _, _, _ => none
  | _ => none

/-- `datetime.strptime(tok, "%d/%m/%Y")`. -/
def strptimeDMY (tok : List Char) : Option (Int × Int × Int) :=
  match splitOnChar '/' tok with
  | [ds, ms, ys] =>
    match parseYear4 ys, parseNum12 ms, parseNum12 ds with
    | some y, some m, some d => mkValidDate y m d
    | _, _, _ => none
  | _ => none

/-- `timezone(...).localize(datetime.combine(parsed_date, now.time()))`:
the parsed calendar date with `now`'s full time-of-day, made aware. -/
def combineDate (ymd : Int × Int × Int) (now : PyDateTime) : PyDateTime :=
  ⟨ymd.1, ymd.2.1, ymd.2.2, now.hour, now.minute, now.second, now.microsecond, true⟩

/-- The date branch (`elif '/' in time_str or '-' in time_str`) of
`ReminderScheduler.parse_reminder_time` (src/reminder_scheduler.py
lines 209-218): the three formats are tried in order on the first
whitespace-separated token; the first successful strict parse wins. -/
def telegramParseDate (s : String) (now : PyDateTime) : Option PyDateTime :=
  match firstTok s.data with
  | none => none
  | some tok =>
    match strptimeYMD tok with
    | some d => some (combineDate d now)
    | none =>
      match strptimeMDY tok with
      | some d => some (combineDate d now)
      | none =>
        match strptimeDMY tok with
        | some d => some (combineDate d now)
        | none => none

/-- `EnhancedDiscordReminderScheduler._parse_date_format`
(src/discord_reminder_scheduler.py lines 372-391): only `YYYY-MM-DD` and
`MM/DD/YYYY` are attempted (each behind an anchored regex whose language
coincides with the strptime format), the result keeps `now`'s hour and
minute but zeroes the seconds, and `strptime` yields a naive instant —
the function never localizes. -/
def discordParseDateFormat (s : String) (base : PyDateTime) : Option PyDateTime :=
  let l := s.data
  match strptimeYMD l with
  | some (y, m, d) => some ⟨y, m, d, base.hour, base.minute, 0, 0, false⟩
  | none =>
    match strptimeMDY l with
    | some (y, m, d) => some ⟨y, m, d, base.hour, base.minute, 0, 0, false⟩
    | none => none

/-! ## Concrete instances used by witnesses and counterexamples -/

/-- A reference instant: 2024-01-15 10:00:00 in the configured timezone. -/
def now0 : PyDateTime := ⟨2024, 1, 15, 10, 0, 0, 0, true⟩

/-- A note store holding notes 1-5. -/
def someNotes : Int → Option String :=
  fun n => if 1 ≤ n ∧ n ≤ 5 then some "Buy milk" else none

/-- A note store with no notes at all. -/
def noNotes : Int → Option String := fun _ => none

/-- One scheduling step by user 1 for note 1 under an explicit job id. -/
def addOne (s : SchedulerState) (jid : String) : SchedulerState :=
  (SchedulerState.scheduleReminder someNotes s 1 1 100 7 (some jid)).2

/-- A scheduler (bot attached) after user 1 has scheduled
`REMINDER_MAX_PER_USER` reminders for note 1 under job ids `"0"` … `"9"`. -/
def fullState : SchedulerState :=
  addOne (addOne (addOne (addOne (addOne (addOne (addOne (addOne (addOne (addOne
    { SchedulerState.initState with discord_bot := true }
    "0") "1") "2") "3") "4") "5") "6") "7") "8") "9"

/-- A scheduler holding one live job `"a"` for user 1 whose bot reference
was never set (`set_discord_bot` not called). -/
def botlessState : SchedulerState :=
  (SchedulerState.scheduleReminder someNotes SchedulerState.initState 1 1 100 7 (some "a")).2

/-- A rate-limiter state with one bucket for a single key. -/
def rlState (B : Nat) (W : Int) (k : String) (l : List Int) : RateLimiter := ⟨B, W, [(k, l)]⟩

/-! # Theorems -/

/-! ## Rate limiter lemmas (C2) -/

theorem dropWhile_replicate_of_not (n : Nat) (t c : Int) (h : ¬ t < c) :
    (List.replicate n t).dropWhile (fun x => decide (x < c)) = List.replicate n t := by
  cases n with
  | zero => rfl
  | succ n => simp [List.replicate_succ, List.dropWhile_cons, h]

/-- On a nondecreasing bucket, popping the expired prefix removes exactly
the expired entries: the front-only `while` loop of `_cleanup_expired`
implements "drop all timestamps older than the cutoff". -/
theorem dropWhile_lt_eq_filter (c : Int) :
    ∀ (l : List Int), l.Sorted (· ≤ ·) →
      l.dropWhile (fun x => decide (x < c)) = l.filter (fun x => !decide (x < c)) := by
  intro l
  induction l with
  | nil => intro _; rfl
  | cons a t ih =>
    intro hs
    rcases List.sorted_cons.mp hs with ⟨hall, hst⟩
    by_cases ha : a < c
    · simp only [List.dropWhile_cons, List.filter_cons, decide_eq_true ha,
        Bool.not_true, Bool.false_eq_true, if_false, if_true]
      exact ih hst
    · have hfl : t.filter (fun x => !decide (x < c)) = t := by
        apply List.filter_eq_self.mpr
        intro x hx
        have hax : a ≤ x := hall x hx
        have : ¬ x < c := fun hxc => ha (lt_of_le_of_lt hax hxc)
        simp [this]
      simp [List.dropWhile_cons, List.filter_cons, ha, hfl]

theorem bucketOf_rlState (B : Nat) (W : Int) (k : String) (l : List Int) :
    (rlState B W k l).bucketOf k = l := by
  simp [rlState, RateLimiter.bucketOf, pyGetD, pyGet]

theorem cleanup_rlState (B : Nat) (W : Int) (k : String) (l : List Int) (now : Int) :
    (rlState B W k l).cleanupExpired k now =
      rlState B W k (l.dropWhile (fun x => decide (x < now - W))) := by
  simp [RateLimiter.cleanupExpired, rlState, RateLimiter.bucketOf, pyGetD, pyGet,
    pySet, pyDel]

theorem cleanup_init (B : Nat) (W : Int) (k : String) (now : Int) :
    (RateLimiter.init B W).cleanupExpired k now = rlState B W k [] := by
  simp [RateLimiter.cleanupExpired, rlState, RateLimiter.init, RateLimiter.bucketOf,
    pyGetD, pyGet, pySet, pyDel]

theorem cleanup_bucket_size (rl : RateLimiter) (k : String) (now : Int) :
    (rl.cleanupExpired k now).bucket_size = rl.bucket_size := rfl

theorem cleanup_window_size (rl : RateLimiter) (k : String) (now : Int) :
    (rl.cleanupExpired k now).window_size = rl.window_size := rfl

theorem isAllowed_rlState (B : Nat) (W : Int) (k : String) (l : List Int) (now : Int) :
    RateLimiter.isAllowed true (rlState B W k l) k now =
      (if B ≤ (l.dropWhile (fun x => decide (x < now - W))).length then
        ((false, max 0 (W - (now - (l.dropWhile (fun x => decide (x < now - W))).headD 0))),
          rlState B W k (l.dropWhile (fun x => decide (x < now - W))))
      else
        ((true, 0),
          rlState B W k (l.dropWhile (fun x => decide (x < now - W)) ++ [now]))) := by
  show (let rl1 := (rlState B W k l).cleanupExpired k now
        let bucket := rl1.bucketOf k
        if rl1.bucket_size ≤ bucket.length then
          ((false, max 0 (rl1.window_size - (now - bucket.headD 0))), rl1)
        else ((true, 0), { rl1 with buckets := pySet rl1.buckets k (bucket ++ [now]) })) = _
  rw [cleanup_rlState]
  simp [rlState, RateLimiter.bucketOf, pyGetD, pyGet, pySet, pyDel]

theorem isAllowed_init (B : Nat) (W : Int) (k : String) (now : Int) :
    RateLimiter.isAllowed true (RateLimiter.init B W) k now =
      (if B = 0 then ((false, max 0 (W - now)), rlState B W k [])
       else ((true, 0), rlState B W k [now])) := by
  show (let rl1 := (RateLimiter.init B W).cleanupExpired k now
        let bucket := rl1.bucketOf k
        if rl1.bucket_size ≤ bucket.length then
          ((false, max 0 (rl1.window_size - (now - bucket.headD 0))), rl1)
        else ((true, 0), { rl1 with buckets := pySet rl1.buckets k (bucket ++ [now]) })) = _
  rw [cleanup_init]
  by_cases hB : B = 0
  · simp [hB, rlState, RateLimiter.bucketOf, pyGetD, pyGet, pySet, pyDel]
  · simp [hB, rlState, RateLimiter.bucketOf, pyGetD, pyGet, pySet, pyDel]

theorem callN_replicate (B : Nat) (W : Int) (k : String) (t : Int) (hW : 0 < W) :
    ∀ n, n ≤ B →
      RateLimiter.callN true (RateLimiter.init B W) k t n =
        if n = 0 then RateLimiter.init B W else rlState B W k (List.replicate n t) := by
  intro n
  induction n with
  | zero => intro _; rfl
  | succ n ih =>
    intro hn
    have hnB : n ≤ B := Nat.le_of_succ_le hn
    have hlt : n < B := hn
    have hkeep : ¬ t < t - W := by omega
    rw [RateLimiter.callN, ih hnB]
    cases n with
    | zero =>
      rw [if_pos rfl, if_neg (Nat.succ_ne_zero 0), isAllowed_init,
        if_neg (by omega : ¬ B = 0)]
      rfl
    | succ m =>
      rw [if_neg (Nat.succ_ne_zero m), if_neg (Nat.succ_ne_zero (m + 1)), isAllowed_rlState,
        dropWhile_replicate_of_not _ _ _ hkeep]
      simp only [List.length_replicate]
      rw [if_neg (Nat.not_le_of_lt hlt), ← List.replicate_succ']

/-- C2: with rate limiting enabled, `is_allowed` prunes entries older than
`now - window_size` (exactly those, on a time-ordered bucket), rejects with
`retry_after = max 0 (window_size - (now - oldest))` without recording when
the bucket is full, and otherwise records `now` and accepts.  Consequently
`bucket_size` rapid calls for one key are accepted, the next is rejected
with positive `retry_after`, and once the window has elapsed a further call
is accepted. -/
theorem rateLimiter_sliding_window (B : Nat) (W : Int) (k : String) (t t2 : Int)
    (hB : 1 ≤ B) (hW : 0 < W) (ht2 : t + W < t2) :
    -- cleanup drops exactly the expired timestamps of a time-ordered bucket
    (∀ (rl : RateLimiter) (now : Int), (rl.bucketOf k).Sorted (· ≤ ·) →
      (rl.cleanupExpired k now).bucketOf k =
        (rl.bucketOf k).filter (fun x => !decide (x < now - rl.window_size))) ∧
    -- a full bucket rejects with the retry formula and records nothing
    (∀ (rl : RateLimiter) (now : Int),
      rl.bucket_size ≤ ((rl.cleanupExpired k now).bucketOf k).length →
      RateLimiter.isAllowed true rl k now =
        ((false, max 0 (rl.window_size - (now - ((rl.cleanupExpired k now).bucketOf k).headD 0))),
          rl.cleanupExpired k now)) ∧
    -- a non-full bucket records `now` and accepts
    (∀ (rl : RateLimiter) (now : Int),
      ((rl.cleanupExpired k now).bucketOf k).length < rl.bucket_size →
      (RateLimiter.isAllowed true rl k now).1 = (true, 0) ∧
      ((RateLimiter.isAllowed true rl k now).2).bucketOf k =
        (rl.cleanupExpired k now).bucketOf k ++ [now]) ∧
    -- scenario: B rapid calls accepted, the next rejected with retry W > 0,
    -- and a call after the window accepted again
    (∀ i, i < B →
      (RateLimiter.isAllowed true (RateLimiter.callN true (RateLimiter.init B W) k t i) k t).1 =
        (true, 0)) ∧
    (RateLimiter.isAllowed true (RateLimiter.callN true (RateLimiter.init B W) k t B) k t).1 =
      (false, W) ∧
    (RateLimiter.isAllowed true
        ((RateLimiter.isAllowed true (RateLimiter.callN true (RateLimiter.init B W) k t B) k t).2)
        k t2).1 = (true, 0) := by
  have hcallB := callN_replicate B W k t hW B (le_refl B)
  have hkeep : ¬ t < t - W := by omega
  refine ⟨?_, ?_, ?_, ?_, ?_, ?_⟩
  · intro rl now hs
    show RateLimiter.bucketOf _ k = _
    simp only [RateLimiter.cleanupExpired, RateLimiter.bucketOf, pyGetD]
    rw [pyGet_pySet_self]
    simp only [Option.getD_some]
    exact dropWhile_lt_eq_filter (now - rl.window_size) _ hs
  · intro rl now hfull
    simp only [RateLimiter.isAllowed, Bool.not_true, Bool.false_eq_true, if_false,
      cleanup_bucket_size, cleanup_window_size]
    rw [if_pos hfull]
  · intro rl now hroom
    constructor
    · simp only [RateLimiter.isAllowed, Bool.not_true, Bool.false_eq_true, if_false,
        cleanup_bucket_size, cleanup_window_size]
      rw [if_neg (Nat.not_le_of_lt hroom)]
    · simp only [RateLimiter.isAllowed, Bool.not_true, Bool.false_eq_true, if_false,
        cleanup_bucket_size, cleanup_window_size]
      rw [if_neg (Nat.not_le_of_lt hroom)]
      show RateLimiter.bucketOf _ k = _
      simp only [RateLimiter.bucketOf, pyGetD]
      rw [pyGet_pySet_self]
      rfl
  · intro i hi
    rw [callN_replicate B W k t hW i (Nat.le_of_lt hi)]
    by_cases hz : i = 0
    · rw [if_pos hz, isAllowed_init, if_neg (by omega : ¬ B = 0)]
    · rw [if_neg hz, isAllowed_rlState, dropWhile_replicate_of_not _ _ _ hkeep]
      simp only [List.length_replicate]
      rw [if_neg (Nat.not_le_of_lt hi)]
  · rw [hcallB, if_neg (by omega : ¬ B = 0), isAllowed_rlState,
      dropWhile_replicate_of_not _ _ _ hkeep]
    simp only [List.length_replicate]
    rw [if_pos (le_refl B)]
    have hhead : (List.replicate B t).headD 0 = t := by
      cases B with
      | zero => omega
      | succ m => rfl
    rw [hhead]
    have hmax : max 0 (W - (t - t)) = W := by omega
    rw [hmax]
  · rw [hcallB, if_neg (by omega : ¬ B = 0), isAllowed_rlState,
      dropWhile_replicate_of_not _ _ _ hkeep]
    simp only [List.length_replicate]
    rw [if_pos (le_refl B)]
    -- the rejected call leaves the bucket as it was; the call at `t2`
    -- prunes every stamp and is admitted
    have hlt : t < t2 - W := by omega
    have hdrop : ∀ n, (List.replicate n t).dropWhile (fun x => decide (x < t2 - W)) = [] := by
      intro n
      induction n with
      | zero => rfl
      | succ m ihm =>
        rw [List.replicate_succ, List.dropWhile_cons]
        simp only [decide_eq_true hlt, if_true]
        exact ihm
    show (RateLimiter.isAllowed true (rlState B W k (List.replicate B t)) k t2).1 = (true, 0)
    rw [isAllowed_rlState, hdrop B]
    simp only [List.length_nil]
    rw [if_neg (by omega : ¬ B ≤ 0)]

/-- Closed instance of `rateLimiter_sliding_window` at the default bucket
size 10, window 60, key `"user:1:general"`, calls at `t = 0` and `t2 = 61`. -/
theorem rateLimiter_sliding_window_witness :
    (1 ≤ 10 ∧ (0 : Int) < 60 ∧ (0 : Int) + 60 < 61) ∧
    (RateLimiter.isAllowed true
        (RateLimiter.callN true (RateLimiter.init 10 60) "user:1:general" 0 10)
        "user:1:general" 0).1 = (false, 60) :=
  ⟨⟨by decide, by decide, by decide⟩,
    (rateLimiter_sliding_window 10 60 "user:1:general" 0 61
      (by decide) (by decide) (by decide)).2.2.2.2.1⟩

/-! ## CommandRateLimiter lemmas (C10) -/

theorem isCommandAllowed_fresh (crl : CommandRateLimiter) (u : Int) (cmd : String) (now : Int)
    (h1 : pyGet COMMAND_COOLDOWNS cmd = none)
    (h2 : pyGet crl.rate_limiters cmd = none) :
    CommandRateLimiter.isCommandAllowed true crl u cmd now =
      ((true, 0),
        ⟨pySet (pySet crl.rate_limiters cmd (RateLimiter.init 1 3)) cmd
          (rlState 1 3 (CommandRateLimiter.userCommandKey u cmd) [now])⟩) := by
  unfold CommandRateLimiter.isCommandAllowed
  simp only [pyGetD, h1, h2, Option.getD_none]
  rw [pyGet_pySet_self]
  simp only [isAllowed_init, if_neg (by omega : ¬ (1 : Nat) = 0)]

theorem isCommandAllowed_existing (crl : CommandRateLimiter) (u : Int) (cmd : String)
    (now : Int) (rl : RateLimiter)
    (h : pyGet crl.rate_limiters cmd = some rl) :
    CommandRateLimiter.isCommandAllowed true crl u cmd now =
      ((RateLimiter.isAllowed true rl (CommandRateLimiter.userCommandKey u cmd) now).1,
        ⟨pySet crl.rate_limiters cmd
          (RateLimiter.isAllowed true rl (CommandRateLimiter.userCommandKey u cmd) now).2⟩) := by
  unfold CommandRateLimiter.isCommandAllowed
  simp only [pyGetD, h]

/-- C10: a command name absent from `COMMAND_COOLDOWNS` is not rejected and
not exempted: `is_command_allowed` lazily creates a limiter with the
default 3-second cooldown (bucket size 1, window 3), admits the first call,
rejects a second call arriving within 3 seconds, and admits a call arriving
after the cooldown — the same one-call-per-cooldown rule applied to
configured commands. -/
theorem commandRateLimiter_default_cooldown (crl : CommandRateLimiter) (u : Int)
    (cmd : String) (now : Int)
    (h1 : pyGet COMMAND_COOLDOWNS cmd = none)
    (h2 : pyGet crl.rate_limiters cmd = none) :
    pyGet (CommandRateLimiter.isCommandAllowed true crl u cmd now).2.rate_limiters cmd =
      some ⟨1, 3, [(CommandRateLimiter.userCommandKey u cmd, [now])]⟩ ∧
    (CommandRateLimiter.isCommandAllowed true crl u cmd now).1 = (true, 0) ∧
    (∀ now2 : Int, now2 ≤ now + 3 →
      (CommandRateLimiter.isCommandAllowed true
        (CommandRateLimiter.isCommandAllowed true crl u cmd now).2 u cmd now2).1.1 = false) ∧
    (∀ now2 : Int, now + 3 < now2 →
      (CommandRateLimiter.isCommandAllowed true
        (CommandRateLimiter.isCommandAllowed true crl u cmd now).2 u cmd now2).1 = (true, 0)) := by
  have hfresh := isCommandAllowed_fresh crl u cmd now h1 h2
  refine ⟨?_, ?_, ?_, ?_⟩
  · rw [hfresh]
    exact pyGet_pySet_self _ _ _
  · rw [hfresh]
  · intro now2 hlt
    have hrl : pyGet (CommandRateLimiter.isCommandAllowed true crl u cmd now).2.rate_limiters
        cmd = some (rlState 1 3 (CommandRateLimiter.userCommandKey u cmd) [now]) := by
      rw [hfresh]
      exact pyGet_pySet_self _ _ _
    rw [isCommandAllowed_existing _ u cmd now2 _ hrl, isAllowed_rlState]
    have hk : ¬ now < now2 - 3 := by omega
    simp only [List.dropWhile_cons, decide_eq_false hk, Bool.false_eq_true, if_false,
      List.dropWhile_nil, List.length_cons, List.length_nil]
    rw [if_pos (by omega : 1 ≤ 0 + 1)]
  · intro now2 hgt
    have hrl : pyGet (CommandRateLimiter.isCommandAllowed true crl u cmd now).2.rate_limiters
        cmd = some (rlState 1 3 (CommandRateLimiter.userCommandKey u cmd) [now]) := by
      rw [hfresh]
      exact pyGet_pySet_self _ _ _
    rw [isCommandAllowed_existing _ u cmd now2 _ hrl, isAllowed_rlState]
    have hk : now < now2 - 3 := by omega
    simp only [List.dropWhile_cons, decide_eq_true hk, if_true, List.dropWhile_nil,
      List.length_nil]
    rw [if_neg (by omega : ¬ 1 ≤ 0)]

/-- Closed instance of `commandRateLimiter_default_cooldown`: the command
`"ping"` has no configured cooldown; from a fresh `CommandRateLimiter` the
first call at `t = 0` is admitted, a second at `t = 3` is rejected. -/
theorem commandRateLimiter_default_cooldown_witness :
    pyGet COMMAND_COOLDOWNS "ping" = none ∧
    pyGet CommandRateLimiter.init.rate_limiters "ping" = none ∧
    (CommandRateLimiter.isCommandAllowed true CommandRateLimiter.init 1 "ping" 0).1 =
      (true, 0) ∧
    (CommandRateLimiter.isCommandAllowed true
      (CommandRateLimiter.isCommandAllowed true CommandRateLimiter.init 1 "ping" 0).2
      1 "ping" 3).1.1 = false := by
  have h := commandRateLimiter_default_cooldown CommandRateLimiter.init 1 "ping" 0
    (by decide) (by decide)
  exact ⟨by decide, by decide, h.2.1, h.2.2.1 3 (by decide)⟩

/-! ## Security middleware (C8) -/

namespace SchedulerState

theorem countOf_incr_self (s : SchedulerState) (u : Int) :
    (s.incrementCount u).countOf u = s.countOf u + 1 := by
  simp [incrementCount, countOf, pyGetD, pyGet_pySet_self]

theorem countOf_incr_other (s : SchedulerState) (u v : Int) (h : v ≠ u) :
    (s.incrementCount u).countOf v = s.countOf v := by
  simp [incrementCount, countOf, pyGetD, pyGet_pySet_other _ _ _ _ h]

theorem countOf_decr_self (s : SchedulerState) (u : Int) :
    (s.decrementCount u).countOf u =
      if 0 < s.countOf u then s.countOf u - 1 else s.countOf u := by
  unfold decrementCount
  by_cases h : 0 < s.countOf u
  · rw [if_pos h, if_pos h]
    simp [countOf, pyGetD, pyGet_pySet_self]
  · rw [if_neg h, if_neg h]

theorem countOf_decr_other (s : SchedulerState) (u v : Int) (h : v ≠ u) :
    (s.decrementCount u).countOf v = s.countOf v := by
  unfold decrementCount
  by_cases hp : 0 < s.countOf u
  · rw [if_pos hp]
    simp [countOf, pyGetD, pyGet_pySet_other _ _ _ _ h]
  · rw [if_neg hp]

theorem liveCount_decr (s : SchedulerState) (u v : Int) :
    (s.decrementCount u).liveCount v = s.liveCount v := by
  unfold decrementCount
  by_cases hp : 0 < s.countOf u
  · rw [if_pos hp]; rfl
  · rw [if_neg hp]

theorem liveCount_incr (s : SchedulerState) (u v : Int) :
    (s.incrementCount u).liveCount v = s.liveCount v := rfl

end SchedulerState

theorem live_pyDel_le (cb : List (String × CallbackInfo)) (j : String) (u : Int) :
    ((pyDel cb j).filter (fun p => p.2.user_id == u)).length ≤
      (cb.filter (fun p => p.2.user_id == u)).length := by
  induction cb with
  | nil => exact Nat.le_refl 0
  | cons p t ih =>
    by_cases hp : p.1 = j
    · rw [pyDel, if_pos hp]
      refine le_trans ih ?_
      rw [List.filter_cons]
      by_cases hu : (p.2.user_id == u) = true
      · rw [if_pos hu]; exact Nat.le_succ _
      · rw [if_neg hu]
    · rw [pyDel, if_neg hp, List.filter_cons, List.filter_cons]
      by_cases hu : (p.2.user_id == u) = true
      · rw [if_pos hu, if_pos hu]
        exact Nat.succ_le_succ ih
      · rw [if_neg hu, if_neg hu]
        exact ih

theorem live_pyDel_lt (cb : List (String × CallbackInfo)) (j : String) (info : CallbackInfo)
    (h : pyGet cb j = some info) :
    ((pyDel cb j).filter (fun p => p.2.user_id == info.user_id)).length <
      (cb.filter (fun p => p.2.user_id == info.user_id)).length := by
  induction cb with
  | nil => exact absurd h (by rw [pyGet]; exact Option.noConfusion)
  | cons p t ih =>
    by_cases hp : p.1 = j
    · rw [pyGet, if_pos hp] at h
      have hinfo : info = p.2 := (Option.some.injEq _ _).mp h.symm
      subst hinfo
      rw [pyDel, if_pos hp, List.filter_cons]
      rw [if_pos (by exact beq_self_eq_true _), List.length_cons]
      exact Nat.lt_succ_of_le (live_pyDel_le t j _)
    · rw [pyGet, if_neg hp] at h
      rw [pyDel, if_neg hp, List.filter_cons, List.filter_cons]
      by_cases hu : (p.2.user_id == info.user_id) = true
      · rw [if_pos hu, if_pos hu, List.length_cons, List.length_cons]
        exact Nat.succ_lt_succ (ih h)
      · rw [if_neg hu, if_neg hu]
        exact ih h

theorem live_pySet (cb : List (String × CallbackInfo)) (j : String) (info : CallbackInfo)
    (u : Int) :
    ((pySet cb j info).filter (fun p => p.2.user_id == u)).length =
      ((pyDel cb j).filter (fun p => p.2.user_id == u)).length +
        (if info.user_id == u then 1 else 0) := by
  rw [pySet, List.filter_append, List.length_append]
  congr 1
  by_cases hu : (info.user_id == u) = true
  · rw [if_pos hu]
    simp [List.filter_cons, hu]
  · rw [if_neg hu]
    simp [List.filter_cons, hu]

theorem live_pos (cb : List (String × CallbackInfo)) (j : String) (info : CallbackInfo)
    (h : pyGet cb j = some info) :
    1 ≤ (cb.filter (fun p => p.2.user_id == info.user_id)).length :=
  Nat.lt_of_le_of_lt (Nat.zero_le _) (live_pyDel_lt cb j info h)

namespace SchedulerState

theorem inv_init : Inv initState := by
  intro u
  refine ⟨le_refl 0, le_refl 0, ?_⟩
  show (0 : Int) ≤ 10
  omega

theorem scheduleReminder_some (ns : Int → Option String) (s : SchedulerState)
    (u n rt ch : Int) (jid : Option String) (text : String)
    (hchk : s.checkUserReminderLimit u = true) (hns : ns n = some text) :
    scheduleReminder ns s u n rt ch jid =
      (some (jid.getD (defaultJobId u n rt)),
        (addJob
          { s with reminder_callbacks := pySet s.reminder_callbacks (jid.getD (defaultJobId u n rt)) (CallbackInfo.mk u n ch rt (text.take 100)) }
          (jid.getD (defaultJobId u n rt))).incrementCount u) := by
  unfold scheduleReminder
  rw [hchk]
  simp only [Bool.not_true, Bool.false_eq_true, if_false]
  rw [hns]

theorem scheduleReminder_capacity (ns : Int → Option String) (s : SchedulerState)
    (u n rt ch : Int) (jid : Option String)
    (hchk : s.checkUserReminderLimit u = false) :
    scheduleReminder ns s u n rt ch jid = (none, s) := by
  unfold scheduleReminder
  rw [hchk]
  rfl

theorem scheduleReminder_notfound (ns : Int → Option String) (s : SchedulerState)
    (u n rt ch : Int) (jid : Option String)
    (hchk : s.checkUserReminderLimit u = true) (hns : ns n = none) :
    scheduleReminder ns s u n rt ch jid = (none, s) := by
  unfold scheduleReminder
  rw [hchk]
  simp only [Bool.not_true, Bool.false_eq_true, if_false]
  rw [hns]

theorem cancelReminder_miss (s : SchedulerState) (j : String)
    (hg : pyGet s.reminder_callbacks j = none) :
    cancelReminder s j = (false, s) := by
  simp only [cancelReminder, hg]

theorem cancelReminder_stale (s : SchedulerState) (j : String) (info : CallbackInfo)
    (hg : pyGet s.reminder_callbacks j = some info)
    (hc : s.sched_jobs.contains j = false) :
    cancelReminder s j = (false, s) := by
  simp only [cancelReminder, hg, hc, Bool.false_eq_true, if_false]

theorem cancelReminder_hit (s : SchedulerState) (j : String) (info : CallbackInfo)
    (hg : pyGet s.reminder_callbacks j = some info)
    (hc : s.sched_jobs.contains j = true) :
    cancelReminder s j =
      (true, ({ s with sched_jobs := s.sched_jobs.filter (fun x => !(x == j)) }
        : SchedulerState).cleanupReminder j info.user_id) := by
  simp only [cancelReminder, hg, hc, if_true]

theorem inv_cleanup (s : SchedulerState) (j : String) (info : CallbackInfo)
    (h : pyGet s.reminder_callbacks j = some info) (hinv : Inv s) :
    Inv (s.cleanupReminder j info.user_id) := by
  have hlt := live_pyDel_lt s.reminder_callbacks j info h
  have hpos : 0 < s.countOf info.user_id := by
    have h1 := live_pos s.reminder_callbacks j info h
    have h2 : (1 : Int) ≤ (s.liveCount info.user_id : Int) := by exact_mod_cast h1
    have h3 := (hinv info.user_id).2.1
    omega
  have hcc : ({ s with reminder_callbacks := pyDel s.reminder_callbacks j }
      : SchedulerState).countOf info.user_id = s.countOf info.user_id := rfl
  have e1 : (s.cleanupReminder j info.user_id).countOf info.user_id =
      s.countOf info.user_id - 1 := by
    unfold cleanupReminder
    rw [countOf_decr_self, hcc, if_pos hpos]
  have e2 : ∀ v : Int, v ≠ info.user_id →
      (s.cleanupReminder j info.user_id).countOf v = s.countOf v := by
    intro v hv
    unfold cleanupReminder
    rw [countOf_decr_other _ _ _ hv]
    rfl
  have e3 : ∀ v : Int, (s.cleanupReminder j info.user_id).liveCount v =
      ((pyDel s.reminder_callbacks j).filter (fun p => p.2.user_id == v)).length := by
    intro v
    unfold cleanupReminder
    rw [liveCount_decr]
    rfl
  intro v
  have hbase := hinv v
  have hlcv : (s.liveCount v : Int) =
      ((s.reminder_callbacks.filter (fun p => p.2.user_id == v)).length : Int) := rfl
  rw [hlcv] at hbase
  have hle := live_pyDel_le s.reminder_callbacks j v
  have hcastle : ((((pyDel s.reminder_callbacks j).filter
      (fun p => p.2.user_id == v)).length : Int)) ≤
      ((s.reminder_callbacks.filter (fun p => p.2.user_id == v)).length : Int) := by
    exact_mod_cast hle
  rw [e3 v]
  by_cases hv : v = info.user_id
  · rw [hv, e1]
    have hcastlt : ((((pyDel s.reminder_callbacks j).filter
        (fun p => p.2.user_id == info.user_id)).length : Int)) <
        ((s.reminder_callbacks.filter (fun p => p.2.user_id == info.user_id)).length : Int) := by
      exact_mod_cast hlt
    have hbase2 := hinv info.user_id
    have hlcu : (s.liveCount info.user_id : Int) =
        ((s.reminder_callbacks.filter
          (fun p => p.2.user_id == info.user_id)).length : Int) := rfl
    rw [hlcu] at hbase2
    refine ⟨by omega, by omega, by omega⟩
  · rw [e2 v hv]
    refine ⟨hbase.1, by omega, hbase.2.2⟩

theorem inv_schedule (ns : Int → Option String) (s : SchedulerState)
    (u n rt ch : Int) (jid : Option String) (hinv : Inv s) :
    Inv (scheduleReminder ns s u n rt ch jid).2 := by
  cases hchk : s.checkUserReminderLimit u with
  | false => rw [scheduleReminder_capacity ns s u n rt ch jid hchk]; exact hinv
  | true =>
    cases hns : ns n with
    | none => rw [scheduleReminder_notfound ns s u n rt ch jid hchk hns]; exact hinv
    | some text =>
      rw [scheduleReminder_some ns s u n rt ch jid text hchk hns]
      have hmax : s.countOf u < REMINDER_MAX_PER_USER := of_decide_eq_true hchk
      intro v
      have hbase := hinv v
      have hlcv : (s.liveCount v : Int) =
          ((s.reminder_callbacks.filter (fun p => p.2.user_id == v)).length : Int) := rfl
      rw [hlcv] at hbase
      have hle := live_pyDel_le s.reminder_callbacks (jid.getD (defaultJobId u n rt)) v
      have hcastle : ((((pyDel s.reminder_callbacks
          (jid.getD (defaultJobId u n rt))).filter
          (fun p => p.2.user_id == v)).length : Int)) ≤
          ((s.reminder_callbacks.filter (fun p => p.2.user_id == v)).length : Int) := by
        exact_mod_cast hle
      have hset := live_pySet s.reminder_callbacks (jid.getD (defaultJobId u n rt))
        (CallbackInfo.mk u n ch rt (text.take 100)) v
      have elive : (((addJob
          { s with reminder_callbacks := pySet s.reminder_callbacks (jid.getD (defaultJobId u n rt)) (CallbackInfo.mk u n ch rt (text.take 100)) }
          (jid.getD (defaultJobId u n rt))).incrementCount u).liveCount v) =
          ((pySet s.reminder_callbacks (jid.getD (defaultJobId u n rt))
            (CallbackInfo.mk u n ch rt (text.take 100))).filter
            (fun p => p.2.user_id == v)).length := rfl
      rw [elive, hset]
      by_cases hv : v = u
      · have ecnt : (((addJob
            { s with reminder_callbacks := pySet s.reminder_callbacks (jid.getD (defaultJobId u n rt)) (CallbackInfo.mk u n ch rt (text.take 100)) }
            (jid.getD (defaultJobId u n rt))).incrementCount u).countOf v) =
            s.countOf v + 1 := by
          rw [hv, countOf_incr_self]
          rfl
        rw [ecnt]
        have hiu : (((CallbackInfo.mk u n ch rt (text.take 100)) : CallbackInfo).user_id == v) = true := by
          rw [hv]; exact beq_self_eq_true _
        rw [if_pos hiu]
        rw [hv] at hbase hcastle ⊢
        push_cast
        omega
      · have ecnt : (((addJob
            { s with reminder_callbacks := pySet s.reminder_callbacks (jid.getD (defaultJobId u n rt)) (CallbackInfo.mk u n ch rt (text.take 100)) }
            (jid.getD (defaultJobId u n rt))).incrementCount u).countOf v) =
            s.countOf v := by
          rw [countOf_incr_other _ _ _ hv]
          rfl
        rw [ecnt]
        have hiu : (((CallbackInfo.mk u n ch rt (text.take 100)) : CallbackInfo).user_id == v) = false := by
          show (u == v) = false
          exact beq_eq_false_iff_ne.mpr (fun e => hv e.symm)
        rw [if_neg (by rw [hiu]; exact Bool.false_ne_true)]
        push_cast
        omega

theorem inv_jobs_only (s : SchedulerState) (X : List String) (hinv : Inv s) :
    Inv { s with sched_jobs := X } := by
  intro u
  exact hinv u

theorem inv_sendReminder (s : SchedulerState) (j : String) (cf sr : Bool)
    (hinv : Inv s) : Inv (sendReminder s j cf sr) := by
  unfold sendReminder
  cases hg : pyGet s.reminder_callbacks j with
  | none => exact hinv
  | some info =>
    by_cases hb : s.discord_bot = true
    · by_cases hcf : cf = true
      · simp only [hb, hcf, Bool.not_true, Bool.false_eq_true, if_false]
        exact inv_cleanup s j info hg hinv
      · have : cf = false := by
          cases cf
          · rfl
          · exact absurd rfl hcf
        simp only [hb, this, Bool.not_true, Bool.not_false, if_true, Bool.false_eq_true,
          if_false]
        exact hinv
    · have : s.discord_bot = false := by
        cases hbv : s.discord_bot
        · rfl
        · exact absurd hbv hb
      simp only [this, Bool.not_false, if_true]
      exact hinv

theorem inv_fire (s : SchedulerState) (j : String) (cf sr : Bool) (hinv : Inv s) :
    Inv (fireJob s j cf sr) := by
  unfold fireJob
  exact inv_sendReminder _ j cf sr (inv_jobs_only s _ hinv)

theorem inv_cancel (s : SchedulerState) (j : String) (hinv : Inv s) :
    Inv (cancelReminder s j).2 := by
  cases hg : pyGet s.reminder_callbacks j with
  | none => rw [cancelReminder_miss s j hg]; exact hinv
  | some info =>
    cases hc : s.sched_jobs.contains j with
    | false => rw [cancelReminder_stale s j info hg hc]; exact hinv
    | true =>
      rw [cancelReminder_hit s j info hg hc]
      exact inv_cleanup _ j info hg (inv_jobs_only s _ hinv)

theorem inv_reachable (s : SchedulerState) (h : Reachable s) : Inv s := by
  induction h with
  | init => exact inv_init
  | step hr hstep ih =>
    cases hstep with
    | schedule ns u n rt ch jid => exact inv_schedule ns _ u n rt ch jid ih
    | fire j cf sr => exact inv_fire _ j cf sr ih
    | cancel j => exact inv_cancel _ j ih
    | setBot b => intro u; exact ih u

end SchedulerState

/-- C9: in every reachable scheduler state each per-user reminder counter
is non-negative, and `_decrement_user_reminder_count` for a user whose
counter is already zero leaves the state unchanged instead of going
negative. -/
theorem counter_nonneg (s : SchedulerState) (h : SchedulerState.Reachable s) :
    (∀ u : Int, 0 ≤ s.countOf u) ∧
    (∀ (s' : SchedulerState) (u : Int), s'.countOf u = 0 →
      s'.decrementCount u = s') := by
  constructor
  · intro u
    exact ((SchedulerState.inv_reachable s h) u).1
  · intro s' u h0
    unfold SchedulerState.decrementCount
    rw [h0]
    simp

/-- Closed instance of `counter_nonneg` at the initial state: the counter of
user 3 is zero, non-negative, and decrementing it is a no-op. -/
theorem counter_nonneg_witness :
    0 ≤ SchedulerState.initState.countOf 3 ∧
    SchedulerState.initState.decrementCount 3 = SchedulerState.initState :=
  ⟨(counter_nonneg SchedulerState.initState .init).1 3,
    (counter_nonneg SchedulerState.initState .init).2 SchedulerState.initState 3 (by decide)⟩

/-- C1: in every reachable state no user owns more than
`REMINDER_MAX_PER_USER` live jobs; a `schedule_reminder` call for a user
already holding the quota returns the capacity signal and leaves the state
(and hence every existing job) unchanged; and after cancelling one of the
user's live jobs a subsequent `schedule_reminder` for them succeeds. -/
theorem reminder_quota (s : SchedulerState) (h : SchedulerState.Reachable s) :
    (∀ u : Int, (s.liveCount u : Int) ≤ REMINDER_MAX_PER_USER) ∧
    (∀ (u : Int) (ns : Int → Option String) (n rt ch : Int) (jid : Option String),
      (s.liveCount u : Int) = REMINDER_MAX_PER_USER →
      SchedulerState.scheduleReminder ns s u n rt ch jid = (none, s)) ∧
    (∀ (j : String) (info : CallbackInfo) (ns : Int → Option String) (n rt ch : Int)
        (jid : Option String) (txt : String),
      pyGet s.reminder_callbacks j = some info → s.sched_jobs.contains j = true →
      ns n = some txt →
      ((SchedulerState.scheduleReminder ns (SchedulerState.cancelReminder s j).2
          info.user_id n rt ch jid).1).isSome = true) := by
  have hinv := SchedulerState.inv_reachable s h
  refine ⟨?_, ?_, ?_⟩
  · intro u
    exact le_trans (hinv u).2.1 (hinv u).2.2
  · intro u ns n rt ch jid hfull
    have hcnt : s.countOf u = REMINDER_MAX_PER_USER := by
      have h1 := (hinv u).2.1
      have h2 := (hinv u).2.2
      omega
    have hchk : s.checkUserReminderLimit u = false := by
      unfold SchedulerState.checkUserReminderLimit
      rw [hcnt]
      simp
    unfold SchedulerState.scheduleReminder
    rw [hchk]
    rfl
  · intro j info ns n rt ch jid txt hget hjob hns
    have hpos : 0 < s.countOf info.user_id := by
      have h1 := live_pos s.reminder_callbacks j info hget
      have h2 : (1 : Int) ≤ (s.liveCount info.user_id : Int) := by exact_mod_cast h1
      have h3 := (hinv info.user_id).2.1
      omega
    have hcancel : (SchedulerState.cancelReminder s j).2 =
        SchedulerState.cleanupReminder
          { s with sched_jobs := s.sched_jobs.filter (fun x => !(x == j)) } j
          info.user_id := by
      rw [SchedulerState.cancelReminder_hit s j info hget hjob]
    have hcnt' : ((SchedulerState.cancelReminder s j).2).countOf info.user_id =
        s.countOf info.user_id - 1 := by
      rw [hcancel]
      unfold SchedulerState.cleanupReminder
      rw [SchedulerState.countOf_decr_self]
      have hc : ∀ X Y, ({ s with sched_jobs := X, reminder_callbacks := Y }
          : SchedulerState).countOf info.user_id = s.countOf info.user_id := fun _ _ => rfl
      rw [hc, if_pos hpos]
    have hchk' : ((SchedulerState.cancelReminder s j).2).checkUserReminderLimit
        info.user_id = true := by
      unfold SchedulerState.checkUserReminderLimit
      rw [hcnt']
      have hle := (hinv info.user_id).2.2
      exact decide_eq_true (by omega)
    unfold SchedulerState.scheduleReminder
    rw [hchk', hns]
    rfl

theorem reachable_addOne {s : SchedulerState} (h : SchedulerState.Reachable s)
    (jid : String) : SchedulerState.Reachable (addOne s jid) :=
  .step h (.schedule s someNotes 1 1 100 7 (some jid))

theorem reachable_fullState : SchedulerState.Reachable fullState := by
  have h0 : SchedulerState.Reachable { SchedulerState.initState with discord_bot := true } :=
    .step .init (.setBot SchedulerState.initState true)
  exact reachable_addOne (reachable_addOne (reachable_addOne (reachable_addOne
    (reachable_addOne (reachable_addOne (reachable_addOne (reachable_addOne
      (reachable_addOne (reachable_addOne h0 "0") "1") "2") "3") "4") "5") "6") "7")
    "8") "9"

/-- Closed instance of `reminder_quota`: user 1 holds 10 live jobs in
`fullState`; an eleventh schedule is refused with the state untouched, and
after cancelling job `"0"` a new schedule succeeds. -/
theorem reminder_quota_witness :
    (fullState.liveCount 1 : Int) = REMINDER_MAX_PER_USER ∧
    SchedulerState.scheduleReminder someNotes fullState 1 1 200 7 (some "x") =
      (none, fullState) ∧
    ((SchedulerState.scheduleReminder someNotes
        (SchedulerState.cancelReminder fullState "0").2 1 1 200 7 (some "x")).1).isSome =
      true := by
  have h := reminder_quota fullState reachable_fullState
  refine ⟨by decide, h.2.1 1 someNotes 1 200 7 (some "x") (by decide), ?_⟩
  exact h.2.2 "0" ⟨1, 1, 7, 100, "Buy milk"⟩ someNotes 1 200 7 (some "x") "Buy milk"
    (by decide) (by decide) (by decide)

/-! ## Cancellation and firing (C4, C5, C6) -/

theorem contains_filter_ne_self (l : List String) (j : String) :
    (l.filter (fun x => !(x == j))).contains j = false := by
  induction l with
  | nil => rfl
  | cons a t ih =>
    by_cases ha : (a == j) = true
    · rw [List.filter_cons, if_neg (by rw [ha]; exact Bool.false_ne_true)]
      exact ih
    · have ha' : (a == j) = false := by
        cases hv : (a == j)
        · rfl
        · exact absurd hv ha
      rw [List.filter_cons, if_pos (by rw [ha']; rfl)]
      have hja : (j == a) = false := by
        have : ¬ a = j := by
          intro e
          rw [e, beq_self_eq_true] at ha'
          exact Bool.noConfusion ha'
        exact beq_eq_false_iff_ne.mpr (fun e => this e.symm)
      show List.elem j (a :: t.filter (fun x => !(x == j))) = false
      rw [List.elem_cons]
      rw [hja]
      exact ih

namespace SchedulerState

theorem callbacks_decr (s : SchedulerState) (u : Int) :
    (s.decrementCount u).reminder_callbacks = s.reminder_callbacks := by
  unfold decrementCount
  by_cases hp : 0 < s.countOf u
  · rw [if_pos hp]
  · rw [if_neg hp]

theorem jobs_decr (s : SchedulerState) (u : Int) :
    (s.decrementCount u).sched_jobs = s.sched_jobs := by
  unfold decrementCount
  by_cases hp : 0 < s.countOf u
  · rw [if_pos hp]
  · rw [if_neg hp]

theorem sendReminder_miss (s : SchedulerState) (j : String) (cf sr : Bool)
    (hg : pyGet s.reminder_callbacks j = none) :
    sendReminder s j cf sr = s := by
  simp only [sendReminder, hg]

theorem sendReminder_nobot (s : SchedulerState) (j : String) (info : CallbackInfo)
    (cf sr : Bool) (hg : pyGet s.reminder_callbacks j = some info)
    (hb : s.discord_bot = false) :
    sendReminder s j cf sr = s := by
  simp only [sendReminder, hg, hb, Bool.not_false, if_true]

theorem sendReminder_nochannel (s : SchedulerState) (j : String) (info : CallbackInfo)
    (sr : Bool) (hg : pyGet s.reminder_callbacks j = some info)
    (hb : s.discord_bot = true) :
    sendReminder s j false sr = s := by
  simp only [sendReminder, hg, hb, Bool.not_true, Bool.not_false, Bool.false_eq_true,
    if_false, if_true]

theorem sendReminder_deliver (s : SchedulerState) (j : String) (info : CallbackInfo)
    (sr : Bool) (hg : pyGet s.reminder_callbacks j = some info)
    (hb : s.discord_bot = true) :
    sendReminder s j true sr = s.cleanupReminder j info.user_id := by
  simp only [sendReminder, hg, hb, Bool.not_true, Bool.false_eq_true, if_false]

end SchedulerState

/-- C6: `cancel_reminder` is idempotent.  A live job (present in the
callback map and pending in the engine) is cancelled exactly once: the
first call returns `True`, deletes the callback entry, removes the pending
job and decrements the owner's counter; a call for an unknown job id
returns `False` and leaves the state untouched; and a repeated cancel of
any job id returns `False` without modifying the state further. -/
theorem cancel_reminder_idempotent (s : SchedulerState) (h : SchedulerState.Reachable s) :
    (∀ (j : String) (info : CallbackInfo),
      pyGet s.reminder_callbacks j = some info → s.sched_jobs.contains j = true →
      (SchedulerState.cancelReminder s j).1 = true ∧
      pyGet (SchedulerState.cancelReminder s j).2.reminder_callbacks j = none ∧
      (SchedulerState.cancelReminder s j).2.sched_jobs.contains j = false ∧
      (SchedulerState.cancelReminder s j).2.countOf info.user_id =
        s.countOf info.user_id - 1) ∧
    (∀ j : String, pyGet s.reminder_callbacks j = none →
      SchedulerState.cancelReminder s j = (false, s)) ∧
    (∀ j : String,
      SchedulerState.cancelReminder (SchedulerState.cancelReminder s j).2 j =
        (false, (SchedulerState.cancelReminder s j).2)) := by
  have hinv := SchedulerState.inv_reachable s h
  refine ⟨?_, ?_, ?_⟩
  · intro j info hg hc
    rw [SchedulerState.cancelReminder_hit s j info hg hc]
    have hpos : 0 < s.countOf info.user_id := by
      have h1 := live_pos s.reminder_callbacks j info hg
      have h2 : (1 : Int) ≤ (s.liveCount info.user_id : Int) := by exact_mod_cast h1
      have h3 := (hinv info.user_id).2.1
      omega
    refine ⟨rfl, ?_, ?_, ?_⟩
    · show pyGet (SchedulerState.cleanupReminder _ j info.user_id).reminder_callbacks j = none
      unfold SchedulerState.cleanupReminder
      rw [SchedulerState.callbacks_decr]
      exact pyGet_pyDel_self _ _
    · show (SchedulerState.cleanupReminder _ j info.user_id).sched_jobs.contains j = false
      unfold SchedulerState.cleanupReminder
      rw [SchedulerState.jobs_decr]
      exact contains_filter_ne_self _ _
    · show (SchedulerState.cleanupReminder _ j info.user_id).countOf info.user_id = _
      unfold SchedulerState.cleanupReminder
      rw [SchedulerState.countOf_decr_self]
      have hcc : ({ s with sched_jobs := s.sched_jobs.filter (fun x => !(x == j)), reminder_callbacks := pyDel s.reminder_callbacks j } : SchedulerState).countOf info.user_id = s.countOf info.user_id := rfl
      rw [hcc, if_pos hpos]
  · intro j hg
    exact SchedulerState.cancelReminder_miss s j hg
  · intro j
    cases hg : pyGet s.reminder_callbacks j with
    | none =>
      rw [SchedulerState.cancelReminder_miss s j hg,
        SchedulerState.cancelReminder_miss s j hg]
    | some info =>
      cases hc : s.sched_jobs.contains j with
      | false =>
        rw [SchedulerState.cancelReminder_stale s j info hg hc,
          SchedulerState.cancelReminder_stale s j info hg hc]
      | true =>
        rw [SchedulerState.cancelReminder_hit s j info hg hc]
        have hg2 : pyGet (({ s with sched_jobs := s.sched_jobs.filter (fun x => !(x == j)) }
            : SchedulerState).cleanupReminder j info.user_id).reminder_callbacks j = none := by
          unfold SchedulerState.cleanupReminder
          rw [SchedulerState.callbacks_decr]
          exact pyGet_pyDel_self _ _
        rw [SchedulerState.cancelReminder_miss _ j hg2]

/-- Closed instance of `cancel_reminder_idempotent` at a one-job state:
the first cancel of `"a"` returns `True`, the second returns `False` and
changes nothing. -/
theorem cancel_reminder_idempotent_witness :
    (SchedulerState.cancelReminder botlessState "a").1 = true ∧
    SchedulerState.cancelReminder (SchedulerState.cancelReminder botlessState "a").2 "a" =
      (false, (SchedulerState.cancelReminder botlessState "a").2) := by
  have hr : SchedulerState.Reachable botlessState :=
    .step .init (.schedule _ someNotes 1 1 100 7 (some "a"))
  have h := cancel_reminder_idempotent botlessState hr
  exact ⟨(h.1 "a" ⟨1, 1, 7, 100, "Buy milk"⟩ (by decide) (by decide)).1, h.2.2 "a"⟩

/-- C4 counterexample: the capacity rejection and the note-not-found
rejection of `schedule_reminder` produce the identical return value
(`None`), so a caller cannot distinguish the two cases from the result as
the claim requires. -/
theorem schedule_signals_counterexample :
    (SchedulerState.scheduleReminder someNotes fullState 1 1 200 7 (some "x")).1 =
      (SchedulerState.scheduleReminder noNotes SchedulerState.initState 1 99 200 7
        (some "x")).1 ∧
    (SchedulerState.scheduleReminder someNotes fullState 1 1 200 7 (some "x")).1 = none ∧
    SchedulerState.initState.checkUserReminderLimit 1 = true ∧
    noNotes 99 = none ∧
    (fullState.liveCount 1 : Int) = REMINDER_MAX_PER_USER := by
  decide

/-- C4 (amended): `schedule_reminder` refuses both when the user is at the
quota and when the note id is unknown, but returns the same signal `None`
in both cases with the state unchanged; the two rejection causes differ
only in the log line, not in the value surfaced to the caller. -/
theorem schedule_failure_signals (ns : Int → Option String) (s : SchedulerState)
    (u n rt ch : Int) (jid : Option String) :
    (s.checkUserReminderLimit u = false →
      SchedulerState.scheduleReminder ns s u n rt ch jid = (none, s)) ∧
    (s.checkUserReminderLimit u = true → ns n = none →
      SchedulerState.scheduleReminder ns s u n rt ch jid = (none, s)) :=
  ⟨fun hchk => SchedulerState.scheduleReminder_capacity ns s u n rt ch jid hchk,
   fun hchk hns => SchedulerState.scheduleReminder_notfound ns s u n rt ch jid hchk hns⟩

/-- Closed instance of `schedule_failure_signals`: the not-found rejection
from the empty scheduler returns `(none, unchanged)`. -/
theorem schedule_failure_signals_witness :
    SchedulerState.initState.checkUserReminderLimit 1 = true ∧
    noNotes 99 = none ∧
    SchedulerState.scheduleReminder noNotes SchedulerState.initState 1 99 200 7
      (some "x") = (none, SchedulerState.initState) :=
  ⟨by decide, rfl,
    (schedule_failure_signals noNotes SchedulerState.initState 1 99 200 7 (some "x")).2
      (by decide) rfl⟩

/-- C5 counterexample: a job fires in a scheduler whose bot reference was
never attached; the handler returns early without cleanup, leaving the job
in the live map with the owner's counter untouched — the fire handler does
not remove the job on every exit path. -/
theorem fire_cleanup_counterexample :
    botlessState.discord_bot = false ∧
    pyGet (SchedulerState.fireJob botlessState "a" true false).reminder_callbacks "a" =
      some ⟨1, 1, 7, 100, "Buy milk"⟩ ∧
    (SchedulerState.fireJob botlessState "a" true false).countOf 1 =
      botlessState.countOf 1 := by
  decide

/-- C5 (amended): once delivery is attempted (bot attached and channel
resolved), the fired job is removed from the live map and the owner's
counter decremented whether the send succeeds or raises — the two outcomes
produce identical states; but the early-return paths (no bot, channel not
found) leave the live map and counters untouched. -/
theorem fire_cleanup_behavior (s : SchedulerState) (j : String) (info : CallbackInfo)
    (hg : pyGet s.reminder_callbacks j = some info) :
    (s.discord_bot = true →
      (∀ sr : Bool,
        pyGet (SchedulerState.fireJob s j true sr).reminder_callbacks j = none ∧
        (0 < s.countOf info.user_id →
          (SchedulerState.fireJob s j true sr).countOf info.user_id =
            s.countOf info.user_id - 1)) ∧
      SchedulerState.fireJob s j true true = SchedulerState.fireJob s j true false ∧
      (∀ sr : Bool,
        (SchedulerState.fireJob s j false sr).reminder_callbacks = s.reminder_callbacks ∧
        (SchedulerState.fireJob s j false sr).user_reminder_counts =
          s.user_reminder_counts)) ∧
    (s.discord_bot = false → ∀ cf sr : Bool,
      (SchedulerState.fireJob s j cf sr).reminder_callbacks = s.reminder_callbacks ∧
      (SchedulerState.fireJob s j cf sr).user_reminder_counts = s.user_reminder_counts) := by
  have hg1 : ∀ X : List String, pyGet (({ s with sched_jobs := X }
      : SchedulerState).reminder_callbacks) j = some info := fun _ => hg
  constructor
  · intro hb
    have hdel : ∀ sr : Bool, SchedulerState.fireJob s j true sr =
        ({ s with sched_jobs := s.sched_jobs.filter (fun x => !(x == j)) }
          : SchedulerState).cleanupReminder j info.user_id := by
      intro sr
      unfold SchedulerState.fireJob
      exact SchedulerState.sendReminder_deliver _ j info sr (hg1 _) hb
    refine ⟨?_, ?_, ?_⟩
    · intro sr
      rw [hdel sr]
      constructor
      · unfold SchedulerState.cleanupReminder
        rw [SchedulerState.callbacks_decr]
        exact pyGet_pyDel_self _ _
      · intro hpos
        unfold SchedulerState.cleanupReminder
        rw [SchedulerState.countOf_decr_self]
        have hcc : ({ s with sched_jobs := s.sched_jobs.filter (fun x => !(x == j)), reminder_callbacks := pyDel s.reminder_callbacks j } : SchedulerState).countOf info.user_id = s.countOf info.user_id := rfl
        rw [hcc, if_pos hpos]
    · rw [hdel true, hdel false]
    · intro sr
      have hstk : SchedulerState.fireJob s j false sr =
          { s with sched_jobs := s.sched_jobs.filter (fun x => !(x == j)) } := by
        unfold SchedulerState.fireJob
        exact SchedulerState.sendReminder_nochannel _ j info sr (hg1 _) hb
      rw [hstk]
      exact ⟨rfl, rfl⟩
  · intro hb cf sr
    have hstk : SchedulerState.fireJob s j cf sr =
        { s with sched_jobs := s.sched_jobs.filter (fun x => !(x == j)) } := by
      unfold SchedulerState.fireJob
      exact SchedulerState.sendReminder_nobot _ j info cf sr (hg1 _) hb
    rw [hstk]
    exact ⟨rfl, rfl⟩

/-- Closed instance of `fire_cleanup_behavior`: with the bot attached, the
fired job `"a"` is gone from the live map whether or not the send raised. -/
theorem fire_cleanup_behavior_witness :
    pyGet ({ botlessState with discord_bot := true }
      : SchedulerState).reminder_callbacks "a" = some ⟨1, 1, 7, 100, "Buy milk"⟩ ∧
    pyGet (SchedulerState.fireJob { botlessState with discord_bot := true } "a" true
      true).reminder_callbacks "a" = none ∧
    pyGet (SchedulerState.fireJob { botlessState with discord_bot := true } "a" true
      false).reminder_callbacks "a" = none := by
  have hg : pyGet ({ botlessState with discord_bot := true }
      : SchedulerState).reminder_callbacks "a" = some ⟨1, 1, 7, 100, "Buy milk"⟩ := by
    decide
  have h := (fire_cleanup_behavior { botlessState with discord_bot := true } "a"
    ⟨1, 1, 7, 100, "Buy milk"⟩ hg).1 rfl
  exact ⟨hg, (h.1 true).1, (h.1 false).1⟩

/-! ## Clock-time parsing (C3) -/

theorem lexLt_flip : ∀ (as bs : List Int), as.length = bs.length →
    lexLtInts as bs = false → (as == bs) = false → lexLtInts bs as = true := by
  intro as
  induction as with
  | nil =>
    intro bs hlen hlt hne
    cases bs with
    | nil => simp at hne
    | cons b bs' => simp at hlen
  | cons a as' ih =>
    intro bs hlen hlt hne
    cases bs with
    | nil => simp at hlen
    | cons b bs' =>
      rw [lexLtInts, Bool.or_eq_false_iff] at hlt
      obtain ⟨h1, h2⟩ := hlt
      have hab : ¬ a < b := of_decide_eq_false h1
      have hlen' : as'.length = bs'.length := by simpa using hlen
      rw [lexLtInts]
      by_cases he : a = b
      · subst he
        have h2' : lexLtInts as' bs' = false := by simpa using h2
        have hne' : (as' == bs') = false := by
          have hneq : as' ≠ bs' := by
            intro e
            rw [e] at hne
            simp at hne
          exact beq_eq_false_iff_ne.mpr hneq
        have hr := ih bs' hlen'.symm.symm h2' hne'
        simp [hr]
      · have hba : b < a := by
          rcases lt_trichotomy a b with hx | hx | hx
          · exact absurd hx hab
          · exact absurd hx he
          · exact hx
        simp [hba]

theorem dtLt_of_not_dtLe (a b : PyDateTime) (h : dtLe a b = false) :
    dtLt b a = true := by
  rw [dtLe, Bool.or_eq_false_iff] at h
  exact lexLt_flip (dtFields a) (dtFields b) rfl h.1 h.2

theorem addOneDay_hour (t : PyDateTime) : (addOneDay t).hour = t.hour := by
  unfold addOneDay
  split
  · rfl
  · split
    · rfl
    · rfl

theorem addOneDay_minute (t : PyDateTime) : (addOneDay t).minute = t.minute := by
  unfold addOneDay
  split
  · rfl
  · split
    · rfl
    · rfl

theorem dtLt_addOneDay_replace (now : PyDateTime) (hh mm : Int) :
    dtLt now (addOneDay (replaceHM now hh mm)) = true := by
  unfold addOneDay replaceHM
  by_cases h1 : now.day < daysInMonth now.year now.month
  · rw [if_pos h1]
    have hd : now.day < now.day + 1 := by omega
    simp [dtLt, dtFields, lexLtInts, hd]
  · rw [if_neg h1]
    by_cases h2 : now.month < 12
    · rw [if_pos h2]
      have hm2 : now.month < now.month + 1 := by omega
      simp [dtLt, dtFields, lexLtInts, hm2]
    · rw [if_neg h2]
      have hy : now.year < now.year + 1 := by omega
      simp [dtLt, dtFields, lexLtInts, hy]

theorem pyReplaceRoll_spec (now : PyDateTime) (hh mm : Int) (t : PyDateTime)
    (ht : pyReplaceRoll now hh mm = some t) :
    dtLt now t = true ∧
      (t = replaceHM now t.hour t.minute ∨ t = addOneDay (replaceHM now t.hour t.minute)) := by
  unfold pyReplaceRoll at ht
  by_cases hr : 0 ≤ hh ∧ hh ≤ 23 ∧ 0 ≤ mm ∧ mm ≤ 59
  · rw [if_pos hr] at ht
    have ht' : (if dtLe (replaceHM now hh mm) now = true then addOneDay (replaceHM now hh mm)
        else replaceHM now hh mm) = t := (Option.some.injEq _ _).mp ht
    by_cases hle : dtLe (replaceHM now hh mm) now = true
    · rw [if_pos hle] at ht'
      have hhr : t.hour = hh := by rw [← ht', addOneDay_hour]; rfl
      have hmr : t.minute = mm := by rw [← ht', addOneDay_minute]; rfl
      constructor
      · rw [← ht']
        exact dtLt_addOneDay_replace now hh mm
      · right
        rw [hhr, hmr, ht']
    · rw [if_neg hle] at ht'
      have hfa : dtLe (replaceHM now hh mm) now = false := by
        cases hv : dtLe (replaceHM now hh mm) now
        · rfl
        · exact absurd hv hle
      have hhr : t.hour = hh := by rw [← ht']; rfl
      have hmr : t.minute = mm := by rw [← ht']; rfl
      constructor
      · rw [← ht']
        exact dtLt_of_not_dtLe _ _ hfa
      · left
        rw [hhr, hmr, ht']
  · rw [if_neg hr] at ht
    exact Option.noConfusion ht

/-- C3 (amended): the Telegram parser (`ReminderScheduler.parse_reminder_time`,
clock branch) returns an instant strictly after `now` that is either today
at the parsed clock time or exactly one calendar day later (the roll-forward
applied when the time of day has passed); the Discord parser
(`_parse_time_format`) performs no roll-forward on either of its arms:
every successful parse — 24-hour or 12-hour am/pm — is `base`'s own date
with only the hour and minute replaced (seconds and microseconds zeroed),
even when that instant is not after `now`; a valid 24-hour `H:MM` yields
today at that clock time, and a 12-hour `H:MM am|pm` yields today at the
am/pm-adjusted hour. -/
theorem clock_parser_behavior :
    (∀ (str : String) (now t : PyDateTime),
      telegramParseClock str now = some t →
      dtLt now t = true ∧
        (t = replaceHM now t.hour t.minute ∨
          t = addOneDay (replaceHM now t.hour t.minute))) ∧
    (∀ (str : String) (base t : PyDateTime),
      discordParseTimeFormat str base = some t →
      t = replaceHM base t.hour t.minute) ∧
    (∀ (str : String) (base : PyDateTime) (hh mm : Int),
      match24 str.data = some (hh, mm) → 0 ≤ hh → hh ≤ 23 → 0 ≤ mm → mm ≤ 59 →
      discordParseTimeFormat str base = some (replaceHM base hh mm)) ∧
    (∀ (str : String) (base : PyDateTime) (hh mm hAdj : Int) (isPm : Bool),
      match24 str.data = none → matchAmPm str.data = some (hh, mm, isPm) →
      hAdj = (if isPm && !(hh == 12) then hh + 12
              else if !isPm && hh == 12 then 0 else hh) →
      0 ≤ hAdj → hAdj ≤ 23 → 0 ≤ mm → mm ≤ 59 →
      discordParseTimeFormat str base = some (replaceHM base hAdj mm)) := by
  refine ⟨?_, ?_, ?_, ?_⟩
  · intro str now t h
    simp only [telegramParseClock] at h
    repeat' split at h
    any_goals exact Option.noConfusion h
    all_goals exact pyReplaceRoll_spec _ _ _ _ h
  · intro str base t h
    simp only [discordParseTimeFormat, discordAmPmPart] at h
    repeat' split at h
    any_goals exact Option.noConfusion h
    all_goals
      have ht : t = replaceHM base _ _ := ((Option.some.injEq _ _).mp h).symm
      subst ht
      rfl
  · intro str base hh mm h24 h0 h23 hm0 hm59
    simp only [discordParseTimeFormat, h24]
    rw [if_pos ⟨h0, h23, hm0, hm59⟩]
  · intro str base hh mm hAdj isPm h24 hampm hadj h0 h23 hm0 hm59
    subst hadj
    simp only [discordParseTimeFormat, h24, discordAmPmPart, hampm]
    rw [if_pos ⟨h0, h23, hm0, hm59⟩]

/-- Closed instance of `clock_parser_behavior`: at 2024-01-15 10:00,
`"9:00"` parses to 2024-01-16 09:00 through the Telegram parser (strictly
after now), while `"14:30"` and the 12-hour `"2:30pm"` through the Discord
parser both stay on the same day. -/
theorem clock_parser_behavior_witness :
    telegramParseClock "9:00" now0 = some ⟨2024, 1, 16, 9, 0, 0, 0, true⟩ ∧
    dtLt now0 ⟨2024, 1, 16, 9, 0, 0, 0, true⟩ = true ∧
    discordParseTimeFormat "14:30" now0 = some (replaceHM now0 14 30) ∧
    discordParseTimeFormat "2:30pm" now0 = some (replaceHM now0 14 30) := by
  have h1 : telegramParseClock "9:00" now0 = some ⟨2024, 1, 16, 9, 0, 0, 0, true⟩ := by
    decide
  have h2 := (clock_parser_behavior.1 "9:00" now0 ⟨2024, 1, 16, 9, 0, 0, 0, true⟩ h1).1
  have h3 := clock_parser_behavior.2.2.1 "14:30" now0 14 30 (by decide) (by decide)
    (by decide) (by decide) (by decide)
  have h4 := clock_parser_behavior.2.2.2 "2:30pm" now0 2 30 14 true (by decide)
    (by decide) (by decide) (by decide) (by decide) (by decide) (by decide)
  exact ⟨h1, h2, h3, h4⟩

/-- C3 counterexample: at `now` = 2024-01-15 10:00, the Discord variant
parses `"9:00"` to 2024-01-15 09:00 — an instant that is not strictly after
`now` and is not the one-day roll-forward the claim requires. -/
theorem clock_parser_counterexample :
    discordParseTimeFormat "9:00" now0 = some ⟨2024, 1, 15, 9, 0, 0, 0, true⟩ ∧
    dtLt now0 ⟨2024, 1, 15, 9, 0, 0, 0, true⟩ = false ∧
    (⟨2024, 1, 15, 9, 0, 0, 0, true⟩ : PyDateTime) ≠ addOneDay (replaceHM now0 9 0) := by
  decide

/-! ## Date parsing (C7) -/

theorem mkValidDate_idem (y m d : Int) (ymd : Int × Int × Int)
    (h : mkValidDate y m d = some ymd) :
    mkValidDate ymd.1 ymd.2.1 ymd.2.2 = some ymd := by
  unfold mkValidDate at h ⊢
  by_cases hc : 1 ≤ m ∧ m ≤ 12 ∧ 1 ≤ d ∧ d ≤ daysInMonth y m
  · rw [if_pos hc] at h
    have he : ymd = (y, m, d) := ((Option.some.injEq _ _).mp h).symm
    subst he
    rw [if_pos hc]
  · rw [if_neg hc] at h
    exact Option.noConfusion h

theorem strptimeYMD_valid (tok : List Char) (d : Int × Int × Int)
    (h : strptimeYMD tok = some d) :
    mkValidDate d.1 d.2.1 d.2.2 = some d := by
  unfold strptimeYMD at h
  repeat' split at h
  any_goals exact Option.noConfusion h
  exact mkValidDate_idem _ _ _ _ h

theorem strptimeMDY_valid (tok : List Char) (d : Int × Int × Int)
    (h : strptimeMDY tok = some d) :
    mkValidDate d.1 d.2.1 d.2.2 = some d := by
  unfold strptimeMDY at h
  repeat' split at h
  any_goals exact Option.noConfusion h
  exact mkValidDate_idem _ _ _ _ h

theorem strptimeDMY_valid (tok : List Char) (d : Int × Int × Int)
    (h : strptimeDMY tok = some d) :
    mkValidDate d.1 d.2.1 d.2.2 = some d := by
  unfold strptimeDMY at h
  repeat' split at h
  any_goals exact Option.noConfusion h
  exact mkValidDate_idem _ _ _ _ h

/-- C7 (amended): the Telegram parser tries `YYYY-MM-DD`, then `MM/DD/YYYY`,
then `DD/MM/YYYY` on the first whitespace token, in that order, under strict
calendar validation, and returns an aware instant on the parsed date with
`now`'s full time-of-day; the Discord variant (`_parse_date_format`) tries
only `YYYY-MM-DD` and `MM/DD/YYYY` — it rejects every `DD/MM/YYYY`-only
expression — and its result is naive with the seconds zeroed. -/
theorem date_parser_behavior :
    (∀ (s : String) (now : PyDateTime) (tok : List Char) (d : Int × Int × Int),
      firstTok s.data = some tok → strptimeYMD tok = some d →
      telegramParseDate s now = some (combineDate d now)) ∧
    (∀ (s : String) (now : PyDateTime) (tok : List Char) (d : Int × Int × Int),
      firstTok s.data = some tok → strptimeYMD tok = none → strptimeMDY tok = some d →
      telegramParseDate s now = some (combineDate d now)) ∧
    (∀ (s : String) (now : PyDateTime) (tok : List Char) (d : Int × Int × Int),
      firstTok s.data = some tok → strptimeYMD tok = none → strptimeMDY tok = none →
      strptimeDMY tok = some d →
      telegramParseDate s now = some (combineDate d now)) ∧
    (∀ (s : String) (now t : PyDateTime), telegramParseDate s now = some t →
      t.tz_aware = true ∧ t.hour = now.hour ∧ t.minute = now.minute ∧
      t.second = now.second ∧ t.microsecond = now.microsecond ∧
      mkValidDate t.year t.month t.day = some (t.year, t.month, t.day)) ∧
    (∀ (s : String) (base : PyDateTime),
      strptimeYMD s.data = none → strptimeMDY s.data = none →
      discordParseDateFormat s base = none) ∧
    (∀ (s : String) (base t : PyDateTime), discordParseDateFormat s base = some t →
      t.tz_aware = false ∧ t.second = 0 ∧ t.microsecond = 0) := by
  refine ⟨?_, ?_, ?_, ?_, ?_, ?_⟩
  · intro s now tok d hft hymd
    simp only [telegramParseDate, hft, hymd]
  · intro s now tok d hft hymd hmdy
    simp only [telegramParseDate, hft, hymd, hmdy]
  · intro s now tok d hft hymd hmdy hdmy
    simp only [telegramParseDate, hft, hymd, hmdy, hdmy]
  · intro s now t h
    unfold telegramParseDate at h
    repeat' split at h
    any_goals exact Option.noConfusion h
    all_goals
      rename_i heq
      have ht : t = combineDate _ now := ((Option.some.injEq _ _).mp h).symm
      subst ht
      refine ⟨rfl, rfl, rfl, rfl, rfl, ?_⟩
    · exact strptimeYMD_valid _ _ heq
    · exact strptimeMDY_valid _ _ heq
    · exact strptimeDMY_valid _ _ heq
  · intro s base hymd hmdy
    simp only [discordParseDateFormat, hymd, hmdy]
  · intro s base t h
    simp only [discordParseDateFormat] at h
    repeat' split at h
    any_goals exact Option.noConfusion h
    all_goals
      have ht : t = _ := ((Option.some.injEq _ _).mp h).symm
      subst ht
      exact ⟨rfl, rfl, rfl⟩

/-- Closed instance of `date_parser_behavior`: the ambiguous `"01/02/2024"`
resolves as `MM/DD/YYYY` (January 2) because that format is tried before
`DD/MM/YYYY`, and a non-date string yields no result from the Discord
variant. -/
theorem date_parser_behavior_witness :
    telegramParseDate "01/02/2024" now0 = some (combineDate (2024, 1, 2) now0) ∧
    discordParseDateFormat "foo" now0 = none := by
  refine ⟨date_parser_behavior.2.1 "01/02/2024" now0 "01/02/2024".data (2024, 1, 2)
    (by decide) (by decide) (by decide), ?_⟩
  exact date_parser_behavior.2.2.2.2.1 "foo" now0 (by decide) (by decide)

/-- C7 counterexample: `"25/12/2024"` is a valid `DD/MM/YYYY` date under
strict calendar validation and the Telegram parser accepts it, but the
Discord parser — also named by the claim — returns no instant at all: it
never tries the `DD/MM/YYYY` format. -/
theorem date_parser_counterexample :
    discordParseDateFormat "25/12/2024" now0 = none ∧
    strptimeDMY "25/12/2024".data = some (2024, 12, 25) ∧
    telegramParseDate "25/12/2024" now0 = some ⟨2024, 12, 25, 10, 0, 0, 0, true⟩ := by
  decide

end NotesBot
